import Mathlib

/-!
Verification of the `LineGraph` component of `react-native-line-graph`.

The component's coordinate pipeline is embedded shallowly:

* JS numbers are idealised as rationals (`ℚ`); a `Date` is represented by its
  millisecond timestamp (its `valueOf()`), which is how both the comparison
  operators and the d3 scales consume it.
* The d3 continuous scales (`scaleLinear`, `scaleTime`) are embedded as the
  exact linear map d3 computes: `bimap` composes `normalize(d0, d1)` with
  `interpolateNumber(r0, r1)`, where `normalize` degenerates to the constant
  `1/2` on an empty domain (`d1 - d0 = 0`), and symmetrically for `invert`.
* d3's linear `nice(count)` is embedded exactly (the `tickIncrement` power /
  error / factor computation, the bounded ten-iteration fixpoint loop, and the
  "domain is only written back on convergence" behaviour).  Comparisons of the
  form `error >= Math.sqrt(n)` are expressed exactly over `ℚ` as
  `0 ≤ error ∧ n ≤ error ^ 2`.
* Fallible JS code — `Array.prototype.reduce` on an empty array throws — is
  embedded with `Option`, `none` standing for the thrown error.
-/

/-- A scalar plotted value: a JS number, or a JS `Date` represented by its
millisecond timestamp. -/
inductive Scalar where
  | num (v : ℚ)
  | date (ms : ℚ)
deriving DecidableEq

/-- Numeric coercion (`valueOf`) of a scalar, as used by comparisons and by the
d3 scales. -/
def Scalar.value : Scalar → ℚ
  | .num v => v
  | .date ms => ms

/-- Whether the scalar is a `Date` (the `instanceof Date` test). -/
def Scalar.isDate : Scalar → Bool
  | .num _ => false
  | .date _ => true

/-- Source: `const min = array => array.reduce((a, b) => (a < b ? a : b))`.
JS `reduce` with no initial value throws on an empty array, modelled as
`none`; `<` on numbers/Dates compares via `valueOf`. -/
def minScalar : List Scalar → Option Scalar
  | [] => none
  | a :: rest => some (rest.foldl (fun a b => if a.value < b.value then a else b) a)

/-- Source: `const max = array => array.reduce((a, b) => (a > b ? a : b))`,
with the same empty-array error behaviour as `minScalar`. -/
def maxScalar : List Scalar → Option Scalar
  | [] => none
  | a :: rest => some (rest.foldl (fun a b => if b.value < a.value then a else b) a)

/-- One plotted point (source type `Datum`): an `x` and a `y` scalar. -/
structure Datum where
  x : Scalar
  y : Scalar
deriving DecidableEq

/-- Which axis a datum value is read from (the `'x' | 'y'` key argument of
`defaultDomain`). -/
inductive AxisKey where
  | x
  | y
deriving DecidableEq

/-- Projection `e[key]` of a datum. -/
def Datum.get (d : Datum) : AxisKey → Scalar
  | .x => d.x
  | .y => d.y

/-- Source: `chartBottomPixel = height - paddingBottom`. -/
def chartBottomPixel (height paddingBottom : ℚ) : ℚ := height - paddingBottom

/-- Source: `chartLeftPixel = paddingLeft`. -/
def chartLeftPixel (paddingLeft : ℚ) : ℚ := paddingLeft

/-- Source: `chartTopPixel = paddingTop`. -/
def chartTopPixel (paddingTop : ℚ) : ℚ := paddingTop

/-- Source: `chartRightPixel = width - paddingRight`. -/
def chartRightPixel (width paddingRight : ℚ) : ℚ := width - paddingRight

/-- Source: `defaultDomain(key)` maps the data to the chosen key and reduces
with `min`/`max`; on an empty array the `min` reduction throws (`none`). -/
def defaultDomain (data : List Datum) (key : AxisKey) : Option (Scalar × Scalar) :=
  match minScalar (data.map (fun e => e.get key)), maxScalar (data.map (fun e => e.get key)) with
  | some lowest, some highest => some (lowest, highest)
  | _, _ => none

/-- Source: `const xDomain = xAxis?.visibleX || defaultDomain('x') || []`.
A supplied `[X, X]` array is always truthy, so an explicit `visibleX` wins
outright and `defaultDomain` is not even evaluated; the trailing `|| []` is
unreachable because an array (even an empty one) is truthy in JS. -/
def xDomain (visibleX : Option (Scalar × Scalar)) (data : List Datum) : Option (Scalar × Scalar) :=
  match visibleX with
  | some p => some p
  | none => defaultDomain data .x

/-- Source: `const yDomain = yAxis?.visibleY || defaultDomain('y')`, with the
same truthiness short-circuit as `xDomain`. -/
def yDomain (visibleY : Option (Scalar × Scalar)) (data : List Datum) : Option (Scalar × Scalar) :=
  match visibleY with
  | some p => some p
  | none => defaultDomain data .y

/-- A d3 continuous scale as built by the component: `scaleLinear()` or
`scaleTime()` with a two-element domain and range.  `isTime` records which
constructor was chosen; over exact arithmetic both apply the same linear map
on `valueOf` timestamps. -/
structure LinScale where
  isTime : Bool
  d0 : ℚ
  d1 : ℚ
  r0 : ℚ
  r1 : ℚ
deriving DecidableEq

/-- Application of a d3 continuous scale: `interpolate(r0, r1)(normalize(d0, d1)(x))`
where `normalize` is `(x - d0) / (d1 - d0)`, degenerating to the constant `1/2`
when `d1 - d0 = 0`, and `interpolateNumber(a, b)(t) = a * (1 - t) + b * t`. -/
def LinScale.apply (s : LinScale) (x : ℚ) : ℚ :=
  let t := if s.d1 - s.d0 = 0 then 1 / 2 else (x - s.d0) / (s.d1 - s.d0)
  s.r0 * (1 - t) + s.r1 * t

/-- Inverse of a d3 continuous scale: `interpolate(d0, d1)(normalize(r0, r1)(p))`,
with the same degenerate constant `1/2` when the range is a single point. -/
def LinScale.invert (s : LinScale) (p : ℚ) : ℚ :=
  let t := if s.r1 - s.r0 = 0 then 1 / 2 else (p - s.r0) / (s.r1 - s.r0)
  s.d0 * (1 - t) + s.d1 * t

/-- Exact rendering of the JS comparison `q >= Math.sqrt(n)` over `ℚ`. -/
def geSqrt (q n : ℚ) : Bool := decide (0 ≤ q) && decide (n ≤ q ^ 2)

/-- d3-array `tickIncrement(start, stop, count)`: the signed step encoding used
by `nice` and `ticks`.  `power` is `Math.floor(Math.log10(step))`, embedded
with `Int.log`; the comparisons against `Math.sqrt(50)`, `Math.sqrt(10)` and
`Math.sqrt(2)` are rendered exactly by `geSqrt`.  Faithful whenever
`step = (stop - start) / max(0, count)` is positive (JS produces
infinities/NaN otherwise; in `ℚ` a division by zero yields `0`). -/
def tickIncrementEnc (start stop count : ℚ) : ℚ :=
  let step := (stop - start) / max 0 count
  let power : ℤ := Int.log 10 step
  let error := step / (10 : ℚ) ^ power
  let factor : ℚ :=
    if geSqrt error 50 then 10 else if geSqrt error 10 then 5 else if geSqrt error 2 then 2 else 1
  if 0 ≤ power then factor * (10 : ℚ) ^ power else -((10 : ℚ) ^ (-power)) / factor

/-- Loop body of d3-scale's linear `nice(count)`: up to `fuel` (10 in d3)
iterations, with the previous step encoding threaded through; the final `Bool`
records whether the converged bounds were actually written back to the domain
(`step === prestep` branch). -/
def niceLoop (count : ℚ) : ℕ → ℚ → ℚ → Option ℚ → ℚ × ℚ × Bool
  | 0, s, t, _ => (s, t, false)
  | fuel + 1, s, t, prestep =>
    if prestep = some (tickIncrementEnc s t count) then (s, t, true)
    else if 0 < tickIncrementEnc s t count then
      niceLoop count fuel ((⌊s / tickIncrementEnc s t count⌋ : ℚ) * tickIncrementEnc s t count)
        ((⌈t / tickIncrementEnc s t count⌉ : ℚ) * tickIncrementEnc s t count)
        (some (tickIncrementEnc s t count))
    else if tickIncrementEnc s t count < 0 then
      niceLoop count fuel ((⌈s * tickIncrementEnc s t count⌉ : ℚ) / tickIncrementEnc s t count)
        ((⌊t * tickIncrementEnc s t count⌋ : ℚ) / tickIncrementEnc s t count)
        (some (tickIncrementEnc s t count))
    else (s, t, false)

/-- d3-scale's linear `nice(count)` acting on a two-element domain, including
the descending-domain swap and write-back orientation: the loop runs on the
sorted bounds and the niced bounds are written back to their original
positions only on convergence. -/
def d3NiceDomain (lo hi count : ℚ) : ℚ × ℚ :=
  if hi < lo then
    match niceLoop count 10 hi lo none with
    | (s, t, true) => (t, s)
    | (_, _, false) => (lo, hi)
  else
    match niceLoop count 10 lo hi none with
    | (s, t, true) => (s, t)
    | (_, _, false) => (lo, hi)

/-- The scale returned by `scale.nice(count)`: only the domain changes, the
range and kind are untouched.  This embeds the linear (`scaleLinear`) nicing;
a d3 `scaleTime` nices to calendar intervals instead, which is not modelled
here — theorems about nicing therefore restrict to `isTime = false`. -/
def LinScale.applyNiceNum (s : LinScale) (count : ℚ) : LinScale :=
  { s with
    d0 := (d3NiceDomain s.d0 s.d1 count).1
    d1 := (d3NiceDomain s.d0 s.d1 count).2 }

/-- The `nice?: true | number` prop of an axis decoration: absent, `true`, or
a numeric tick count. -/
inductive NiceProp where
  | noNice
  | niceTrue
  | niceCount (c : ℚ)
deriving DecidableEq

/-- Source: `maybeWithNice(_without, nice)` returns the scale unchanged when
`nice` is falsy (absent, or the number `0`); `nice === true` passes
`undefined` to `scale.nice`, which d3 defaults to a count of 10. -/
def maybeWithNice (s : LinScale) (p : NiceProp) : LinScale :=
  match p with
  | .noNice => s
  | .niceTrue => s.applyNiceNum 10
  | .niceCount c => if c = 0 then s else s.applyNiceNum c

/-- Source `_xBeforeNice`: a time scale when `data[0]` exists and `data[0].x`
is a `Date`, otherwise a linear scale; domain from `xDomain`, range
`[chartLeftPixel, chartRightPixel]`.  `none` when domain inference threw. -/
def beforeNiceX (data : List Datum) (visibleX : Option (Scalar × Scalar))
    (chartLeft chartRight : ℚ) : Option LinScale :=
  (xDomain visibleX data).map fun p =>
    { isTime := match data.head? with | some d => d.x.isDate | none => false
      d0 := p.1.value
      d1 := p.2.value
      r0 := chartLeft
      r1 := chartRight }

/-- Source `_yBeforeNice`: kind chosen from `data[0].y`, domain from `yDomain`,
range `[chartBottomPixel, chartTopPixel]` (inverted: pixel y grows downward). -/
def beforeNiceY (data : List Datum) (visibleY : Option (Scalar × Scalar))
    (chartBottom chartTop : ℚ) : Option LinScale :=
  (yDomain visibleY data).map fun p =>
    { isTime := match data.head? with | some d => d.y.isDate | none => false
      d0 := p.1.value
      d1 := p.2.value
      r0 := chartBottom
      r1 := chartTop }

/-- Source `xScale = maybeWithNice(_xBeforeNice, xAxis?.nice)`, assembled from
the component props. -/
def xScaleOf (data : List Datum) (visibleX : Option (Scalar × Scalar)) (nice : NiceProp)
    (paddingLeft width paddingRight : ℚ) : Option LinScale :=
  (beforeNiceX data visibleX (chartLeftPixel paddingLeft) (chartRightPixel width paddingRight)).map
    (fun s => maybeWithNice s nice)

/-- Source `yScale = maybeWithNice(_yBeforeNice, yAxis?.nice)`, assembled from
the component props. -/
def yScaleOf (data : List Datum) (visibleY : Option (Scalar × Scalar)) (nice : NiceProp)
    (paddingTop height paddingBottom : ℚ) : Option LinScale :=
  (beforeNiceY data visibleY (chartBottomPixel height paddingBottom) (chartTopPixel paddingTop)).map
    (fun s => maybeWithNice s nice)

/-- Source `dotData`: the pixel position `(xScale(d.x), yScale(d.y))` of one
datum's dot. -/
def dotPixel (xs ys : LinScale) (d : Datum) : ℚ × ℚ :=
  (xs.apply d.x.value, ys.apply d.y.value)

/-- Pixel positions of all dots, in data order. -/
def dotPositions (xs ys : LinScale) (data : List Datum) : List (ℚ × ℚ) :=
  data.map (dotPixel xs ys)

/-- JS `Math.round`: round half toward positive infinity. -/
def jsRound (q : ℚ) : ℤ := ⌊q + 1 / 2⌋

/-- d3-array `ticks(start, stop, count)`: the default tick values a continuous
scale generates.  Mirrors the reference implementation, including the
single-value short-circuit, the descending reversal, and the two branches of
the signed increment encoding. -/
def d3Ticks (start stop count : ℚ) : List ℚ :=
  if start = stop ∧ 0 < count then [start]
  else
    let rev := stop < start
    let s := if rev then stop else start
    let t := if rev then start else stop
    let step := tickIncrementEnc s t count
    if step = 0 then []
    else
      let lst :=
        if 0 < step then
          let r0 := jsRound (s / step)
          let r0 := if (r0 : ℚ) * step < s then r0 + 1 else r0
          let r1 := jsRound (t / step)
          let r1 := if t < (r1 : ℚ) * step then r1 - 1 else r1
          (List.range (r1 - r0 + 1).toNat).map fun i => ((r0 + i : ℤ) : ℚ) * step
        else
          let sp := -step
          let r0 := jsRound (s * sp)
          let r0 := if (r0 : ℚ) / sp < s then r0 + 1 else r0
          let r1 := jsRound (t * sp)
          let r1 := if t < (r1 : ℚ) / sp then r1 - 1 else r1
          (List.range (r1 - r0 + 1).toNat).map fun i => ((r0 + i : ℤ) : ℚ) / sp
      if rev then lst.reverse else lst

/-- Tick generation of a scale: `scale.ticks(count)` delegates to d3-array's
`ticks` on the current domain.  This embeds the linear scale's ticks; a d3
`scaleTime` generates calendar-interval ticks instead, which is not modelled
here — theorems about generated ticks restrict to `isTime = false`. -/
def LinScale.genTicks (s : LinScale) (count : ℚ) : List ℚ :=
  d3Ticks s.d0 s.d1 count

/-- The `labels` prop of an axis decoration: absent, a numeric tick count, or
an explicit list of axis labels. -/
inductive LabelsProp (α : Type) where
  | absent
  | count (n : ℚ)
  | list (ls : List α)

/-- Source `xTickCount` / `yTickCount`:
`typeof axis?.labels === 'number' ? axis.labels : data.length`. -/
def tickCountOf {α : Type} (labels : LabelsProp α) (dataLen : ℕ) : ℚ :=
  match labels with
  | .count n => n
  | _ => (dataLen : ℚ)

/-- Source `xTicks` / `yTicks`: an explicit label array is used verbatim
(`labels instanceof Array`); otherwise the scale's own generated ticks for
the computed tick count. -/
def ticksOf {α : Type} (labels : LabelsProp α) (s : LinScale) (dataLen : ℕ) :
    List α ⊕ List ℚ :=
  match labels with
  | .list ls => .inl ls
  | _ => .inr (s.genTicks (tickCountOf labels dataLen))

/-- Source `PointData`: a domain point together with its pixel position (the
domain components are held by their numeric `valueOf`). -/
structure PointData where
  x : ℚ
  y : ℚ
  pixelX : ℚ
  pixelY : ℚ
deriving DecidableEq

/-- Source `GridLine`: the two endpoints of a gridline. -/
structure GridLine where
  p1 : PointData
  p2 : PointData
deriving DecidableEq

/-- Source `PixelOffset`: a per-label pixel shift. -/
structure PixelOffset where
  horizontal : ℚ
  vertical : ℚ
deriving DecidableEq

/-- Numeric placement part of the SVG `TextProps` built for a tick label (the
`x` and `y` attributes the `Text` element is rendered with). -/
structure TextPlacement where
  x : ℚ
  y : ℚ
deriving DecidableEq

/-- Embedding of the source's `IAxisTick`: domain value, pixel position, label
text and its placement, and the derived gridline. -/
structure AxisTick where
  x : ℚ
  y : ℚ
  pixelX : ℚ
  pixelY : ℚ
  text : String
  textProps : TextPlacement
  gridLine : GridLine
deriving DecidableEq

/-- Source: `gridLineProps?.startExtendPixels || 0` (and the three analogous
reads) — a JS truthiness default, so an explicit `0` and an absent prop agree. -/
def gridExtend (o : Option ℚ) : ℚ :=
  match o with
  | some v => if v = 0 then 0 else v
  | none => 0

/-- Source `xTickToGridLine(_x, pixelX)`: a vertical gridline whose endpoint
domain values are recovered through `yScale.invert` at the extended chart top
and bottom, and whose endpoint pixels are the scale re-applied to those. -/
def xTickToGridLine (ys : LinScale) (chartTop chartBottom xStartExtend xEndExtend : ℚ)
    (x pixelX : ℚ) : GridLine :=
  let y1 := ys.invert (chartTop - xStartExtend)
  let pixelY1 := ys.apply y1
  let y2 := ys.invert (chartBottom + xEndExtend)
  let pixelY2 := ys.apply y2
  { p1 := { x := x, y := y1, pixelX := pixelX, pixelY := pixelY1 }
    p2 := { x := x, y := y2, pixelX := pixelX, pixelY := pixelY2 } }

/-- Source `yTickToGridLine(_y, pixelY)`: a horizontal gridline spanning the
extended chart left and right edges through `xScale.invert`/`xScale`. -/
def yTickToGridLine (xs : LinScale) (chartLeft chartRight yStartExtend yEndExtend : ℚ)
    (y pixelY : ℚ) : GridLine :=
  let x1 := xs.invert (chartLeft - yStartExtend)
  let pixelX0 := xs.apply x1
  let x2 := xs.invert (chartRight + yEndExtend)
  let pixelX1 := xs.apply x2
  { p1 := { x := x1, y := y, pixelX := pixelX0, pixelY := pixelY }
    p2 := { x := x2, y := y, pixelX := pixelX1, pixelY := pixelY } }

/-- Source `xTextLabelProps`: the label `Text` is placed at the tick pixel
position shifted by the per-label offset. -/
def xTextLabelProps (pixelX pixelY : ℚ) (offset : PixelOffset) : TextPlacement :=
  { x := pixelX + offset.horizontal, y := pixelY + offset.vertical }

/-- Source `yTextLabelProps`: same placement arithmetic as `xTextLabelProps`
(the props differ only in text anchoring, which carries no pixel data). -/
def yTextLabelProps (pixelX pixelY : ℚ) (offset : PixelOffset) : TextPlacement :=
  { x := pixelX + offset.horizontal, y := pixelY + offset.vertical }

/-- An x-axis label: a domain value plus display text. -/
structure XAxisLabel where
  x : Scalar
  text : String
deriving DecidableEq

/-- A y-axis label: a domain value plus display text. -/
structure YAxisLabel where
  y : Scalar
  text : String
deriving DecidableEq

/-- Source `xLabelToAxisTick(label, offset)`: the tick sits at
`(xScale(label.x), defaultXAxisPixelY)`; its text placement adds the offset
and its gridline is derived from the unshifted `pixelX`. -/
def xLabelToAxisTick (xs ys : LinScale) (axisPixelY chartTop chartBottom xStartExtend xEndExtend : ℚ)
    (label : XAxisLabel) (offset : PixelOffset) : AxisTick :=
  let pixelY := axisPixelY
  let yv := ys.invert pixelY
  let pixelX := xs.apply label.x.value
  { x := label.x.value
    y := yv
    pixelX := pixelX
    pixelY := pixelY
    text := label.text
    textProps := xTextLabelProps pixelX pixelY offset
    gridLine := xTickToGridLine ys chartTop chartBottom xStartExtend xEndExtend label.x.value pixelX }

/-- Source `yLabelToAxisTick(label, offset)`: the tick sits at
`(defaultYAxisPixelX, yScale(label.y))`; its text placement adds the offset
and its gridline is derived from the unshifted `pixelY`. -/
def yLabelToAxisTick (xs ys : LinScale) (axisPixelX chartLeft chartRight yStartExtend yEndExtend : ℚ)
    (label : YAxisLabel) (offset : PixelOffset) : AxisTick :=
  let pixelX := axisPixelX
  let xv := xs.invert pixelX
  let pixelY := ys.apply label.y.value
  { x := xv
    y := label.y.value
    pixelX := pixelX
    pixelY := pixelY
    text := label.text
    textProps := yTextLabelProps pixelX pixelY offset
    gridLine := yTickToGridLine xs chartLeft chartRight yStartExtend yEndExtend label.y.value pixelY }

/-- The `pixelY?: 'top' | 'bottom' | number` prop of the x axis. -/
inductive XAxisPixelY where
  | top
  | bottom
  | num (q : ℚ)
deriving DecidableEq

/-- The `pixelX?: 'left' | 'right' | number` prop of the y axis. -/
inductive YAxisPixelX where
  | left
  | right
  | num (q : ℚ)
deriving DecidableEq

/-- Source: `const xAxisLocation = xAxis?.pixelY || 'bottom'` — a truthiness
test, so the number `0` (and an absent prop) both fall back to `'bottom'`;
the strings `'top'`/`'bottom'` are always truthy. -/
def xAxisLocation (pixelY : Option XAxisPixelY) : XAxisPixelY :=
  match pixelY with
  | none => .bottom
  | some (.num q) => if q = 0 then .bottom else .num q
  | some l => l

/-- Source `xLocationToPixelY` composed into `defaultXAxisPixelY`: a numeric
location is used as-is, `'top'` is `chartTopPixel - 4`, `'bottom'` is
`chartBottomPixel + 12`. -/
def defaultXAxisPixelY (pixelY : Option XAxisPixelY) (chartTop chartBottom : ℚ) : ℚ :=
  match xAxisLocation pixelY with
  | .num q => q
  | .top => chartTop - 4
  | .bottom => chartBottom + 12

/-- Source: `const yAxisLocation = yAxis?.pixelX || 'left'` — the same
truthiness test, so the number `0` falls back to `'left'`. -/
def yAxisLocation (pixelX : Option YAxisPixelX) : YAxisPixelX :=
  match pixelX with
  | none => .left
  | some (.num q) => if q = 0 then .left else .num q
  | some l => l

/-- Source `yLocationToPixelX` composed into `defaultYAxisPixelX`: a numeric
location is used as-is, `'left'` is `chartLeftPixel - 4`, `'right'` is
`chartRightPixel + 4`. -/
def defaultYAxisPixelX (pixelX : Option YAxisPixelX) (chartLeft chartRight : ℚ) : ℚ :=
  match yAxisLocation pixelX with
  | .num q => q
  | .left => chartLeft - 4
  | .right => chartRight + 4

/-- A d3 continuous scale maps any value between its domain bounds to a pixel
between its range bounds, whatever the range orientation. -/
theorem LinScale.apply_between (s : LinScale) (x : ℚ) (h0 : s.d0 ≤ x) (h1 : x ≤ s.d1) :
    min s.r0 s.r1 ≤ s.apply x ∧ s.apply x ≤ max s.r0 s.r1 := by
  unfold LinScale.apply
  by_cases hd : s.d1 - s.d0 = 0
  · simp only [hd, if_true, eq_self_iff_true]
    rcases le_total s.r0 s.r1 with h | h
    · rw [min_eq_left h, max_eq_right h]
      constructor <;> nlinarith
    · rw [min_eq_right h, max_eq_left h]
      constructor <;> nlinarith
  · simp only [if_neg hd]
    have hlt : s.d0 < s.d1 := by
      rcases lt_or_eq_of_le (le_trans h0 h1) with h | h
      · exact h
      · exact absurd (by rw [h]; ring) hd
    have ht0 : 0 ≤ (x - s.d0) / (s.d1 - s.d0) := div_nonneg (by linarith) (by linarith)
    have ht1 : (x - s.d0) / (s.d1 - s.d0) ≤ 1 := by
      rw [div_le_one (by linarith)]
      linarith
    rcases le_total s.r0 s.r1 with h | h
    · rw [min_eq_left h, max_eq_right h]
      constructor <;> nlinarith
    · rw [min_eq_right h, max_eq_left h]
      constructor <;> nlinarith

/-- A non-degenerate d3 continuous scale is a left inverse of its own
`invert`. -/
theorem LinScale.apply_invert (s : LinScale) (hd : s.d1 - s.d0 ≠ 0) (hr : s.r1 - s.r0 ≠ 0)
    (p : ℚ) : s.apply (s.invert p) = p := by
  unfold LinScale.apply LinScale.invert
  simp only [if_neg hd, if_neg hr]
  field_simp
  ring

/-- `scale.nice` only rewrites the domain: range and kind are untouched. -/
theorem maybeWithNice_preserves (s : LinScale) (p : NiceProp) :
    (maybeWithNice s p).r0 = s.r0 ∧ (maybeWithNice s p).r1 = s.r1 ∧
      (maybeWithNice s p).isTime = s.isTime := by
  rcases p with _ | _ | c
  · exact ⟨rfl, rfl, rfl⟩
  · exact ⟨rfl, rfl, rfl⟩
  · simp only [maybeWithNice]
    split <;> exact ⟨rfl, rfl, rfl⟩

/-- Each pass of the `nice` loop can only move the lower bound down and the
upper bound up, whatever increment `tickIncrement` produces. -/
theorem niceLoop_le (count : ℚ) :
    ∀ (fuel : ℕ) (s t : ℚ) (pre : Option ℚ),
      (niceLoop count fuel s t pre).1 ≤ s ∧ t ≤ (niceLoop count fuel s t pre).2.1 := by
  intro fuel
  induction fuel with
  | zero => intro s t pre; exact ⟨le_refl s, le_refl t⟩
  | succ n ih =>
    intro s t pre
    rw [niceLoop]
    by_cases h1 : pre = some (tickIncrementEnc s t count)
    · rw [if_pos h1]
      exact ⟨le_refl s, le_refl t⟩
    · rw [if_neg h1]
      by_cases h2 : 0 < tickIncrementEnc s t count
      · rw [if_pos h2]
        have hne : tickIncrementEnc s t count ≠ 0 := ne_of_gt h2
        have hfl : (⌊s / tickIncrementEnc s t count⌋ : ℚ) * tickIncrementEnc s t count ≤ s :=
          calc (⌊s / tickIncrementEnc s t count⌋ : ℚ) * tickIncrementEnc s t count
              ≤ s / tickIncrementEnc s t count * tickIncrementEnc s t count :=
                mul_le_mul_of_nonneg_right (Int.floor_le _) (le_of_lt h2)
            _ = s := div_mul_cancel₀ s hne
        have hce : t ≤ (⌈t / tickIncrementEnc s t count⌉ : ℚ) * tickIncrementEnc s t count :=
          calc t = t / tickIncrementEnc s t count * tickIncrementEnc s t count :=
                (div_mul_cancel₀ t hne).symm
            _ ≤ (⌈t / tickIncrementEnc s t count⌉ : ℚ) * tickIncrementEnc s t count :=
                mul_le_mul_of_nonneg_right (Int.le_ceil _) (le_of_lt h2)
        obtain ⟨ha, hb⟩ := ih _ _ (some (tickIncrementEnc s t count))
        exact ⟨le_trans ha hfl, le_trans hce hb⟩
      · rw [if_neg h2]
        by_cases h3 : tickIncrementEnc s t count < 0
        · rw [if_pos h3]
          have hfl : (⌈s * tickIncrementEnc s t count⌉ : ℚ) / tickIncrementEnc s t count ≤ s := by
            rw [div_le_iff_of_neg h3]
            exact Int.le_ceil _
          have hce : t ≤ (⌊t * tickIncrementEnc s t count⌋ : ℚ) / tickIncrementEnc s t count := by
            rw [le_div_iff_of_neg h3]
            exact Int.floor_le _
          obtain ⟨ha, hb⟩ := ih _ _ (some (tickIncrementEnc s t count))
          exact ⟨le_trans ha hfl, le_trans hce hb⟩
        · rw [if_neg h3]
          exact ⟨le_refl s, le_refl t⟩

/-- For an ascending domain, d3's linear `nice` never narrows it. -/
theorem d3NiceDomain_widens (lo hi count : ℚ) (hle : lo ≤ hi) :
    (d3NiceDomain lo hi count).1 ≤ lo ∧ hi ≤ (d3NiceDomain lo hi count).2 := by
  unfold d3NiceDomain
  rw [if_neg (not_lt.mpr hle)]
  have h := niceLoop_le count 10 lo hi none
  rcases hl : niceLoop count 10 lo hi none with ⟨s, t, b⟩
  rw [hl] at h
  cases b
  · simp only
    exact ⟨le_refl lo, le_refl hi⟩
  · simp only
    exact ⟨h.1, h.2⟩

/-- The x pipeline always hands `scaleLinear`/`scaleTime` the range
`[chartLeftPixel, chartRightPixel]`, and `nice` does not touch it. -/
theorem xScaleOf_range {data : List Datum} {vx : Option (Scalar × Scalar)} {n : NiceProp}
    {pl w pr : ℚ} {xs : LinScale} (h : xScaleOf data vx n pl w pr = some xs) :
    xs.r0 = chartLeftPixel pl ∧ xs.r1 = chartRightPixel w pr := by
  unfold xScaleOf at h
  rcases Option.map_eq_some'.mp h with ⟨s0, hs0, rfl⟩
  unfold beforeNiceX at hs0
  rcases Option.map_eq_some'.mp hs0 with ⟨p, _, rfl⟩
  exact ⟨(maybeWithNice_preserves _ n).1, (maybeWithNice_preserves _ n).2.1⟩

/-- The y pipeline always hands the scale the inverted range
`[chartBottomPixel, chartTopPixel]`, and `nice` does not touch it. -/
theorem yScaleOf_range {data : List Datum} {vy : Option (Scalar × Scalar)} {n : NiceProp}
    {pt h0 pb : ℚ} {ys : LinScale} (h : yScaleOf data vy n pt h0 pb = some ys) :
    ys.r0 = chartBottomPixel h0 pb ∧ ys.r1 = chartTopPixel pt := by
  unfold yScaleOf at h
  rcases Option.map_eq_some'.mp h with ⟨s0, hs0, rfl⟩
  unfold beforeNiceY at hs0
  rcases Option.map_eq_some'.mp hs0 with ⟨p, _, rfl⟩
  exact ⟨(maybeWithNice_preserves _ n).1, (maybeWithNice_preserves _ n).2.1⟩

/-- C1: for every non-empty data array, every datum whose x and y values lie
within the (explicit, inferred, or niced) scale domains has its dot pixel
position `(xScale(d.x), yScale(d.y))` inside the declared chart rectangle:
`paddingLeft ≤ pixelX ≤ width - paddingRight` and
`paddingTop ≤ pixelY ≤ height - paddingBottom`. -/
theorem dots_within_chart_rect
    (data : List Datum) (d : Datum) (hd : d ∈ data)
    (width height paddingTop paddingRight paddingBottom paddingLeft : ℚ)
    (visibleX visibleY : Option (Scalar × Scalar)) (nx ny : NiceProp)
    (xs ys : LinScale)
    (hxs : xScaleOf data visibleX nx paddingLeft width paddingRight = some xs)
    (hys : yScaleOf data visibleY ny paddingTop height paddingBottom = some ys)
    (hpx : paddingLeft ≤ width - paddingRight)
    (hpy : paddingTop ≤ height - paddingBottom)
    (hx0 : xs.d0 ≤ d.x.value) (hx1 : d.x.value ≤ xs.d1)
    (hy0 : ys.d0 ≤ d.y.value) (hy1 : d.y.value ≤ ys.d1) :
    paddingLeft ≤ (dotPixel xs ys d).1 ∧ (dotPixel xs ys d).1 ≤ width - paddingRight ∧
      paddingTop ≤ (dotPixel xs ys d).2 ∧ (dotPixel xs ys d).2 ≤ height - paddingBottom := by
  obtain ⟨hxr0, hxr1⟩ := xScaleOf_range hxs
  obtain ⟨hyr0, hyr1⟩ := yScaleOf_range hys
  obtain ⟨ha, hb⟩ := LinScale.apply_between xs d.x.value hx0 hx1
  obtain ⟨hc, he⟩ := LinScale.apply_between ys d.y.value hy0 hy1
  simp only [hxr0, hxr1, chartLeftPixel, chartRightPixel, min_eq_left hpx,
    max_eq_right hpx] at ha hb
  simp only [hyr0, hyr1, chartBottomPixel, chartTopPixel, min_eq_right hpy,
    max_eq_left hpy] at hc he
  exact ⟨ha, hb, hc, he⟩

/-- Witness for C1 at the concrete chart of the spec's worked example. -/
theorem dots_within_chart_rect_witness :
    (0 : ℚ) ≤ (dotPixel ⟨false, 0, 10, 0, 100⟩ ⟨false, 0, 10, 100, 0⟩ ⟨.num 0, .num 0⟩).1 ∧
      (dotPixel ⟨false, 0, 10, 0, 100⟩ ⟨false, 0, 10, 100, 0⟩ ⟨.num 0, .num 0⟩).1 ≤ 100 - 0 ∧
      (0 : ℚ) ≤ (dotPixel ⟨false, 0, 10, 0, 100⟩ ⟨false, 0, 10, 100, 0⟩ ⟨.num 0, .num 0⟩).2 ∧
      (dotPixel ⟨false, 0, 10, 0, 100⟩ ⟨false, 0, 10, 100, 0⟩ ⟨.num 0, .num 0⟩).2 ≤ 100 - 0 :=
  dots_within_chart_rect [⟨.num 0, .num 0⟩, ⟨.num 10, .num 10⟩] ⟨.num 0, .num 0⟩
    (List.mem_cons_self _ _)
    100 100 0 0 0 0 none none .noNice .noNice ⟨false, 0, 10, 0, 100⟩ ⟨false, 0, 10, 100, 0⟩
    (by norm_num [xScaleOf, beforeNiceX, xDomain, defaultDomain, minScalar, maxScalar,
      maybeWithNice, chartLeftPixel, chartRightPixel, Scalar.value, Datum.get, Scalar.isDate])
    (by norm_num [yScaleOf, beforeNiceY, yDomain, defaultDomain, minScalar, maxScalar,
      maybeWithNice, chartBottomPixel, chartTopPixel, Scalar.value, Datum.get, Scalar.isDate])
    (by norm_num) (by norm_num)
    (by norm_num [Scalar.value]) (by norm_num [Scalar.value])
    (by norm_num [Scalar.value]) (by norm_num [Scalar.value])

/-- C2: with `data = [(0,0), (10,10)]`, `width = height = 100` and all
paddings `0`, the x scale maps `0 ↦ 0` and `10 ↦ 100`, and the y scale maps
`0 ↦ 100` and `10 ↦ 0` (inverted). -/
theorem example_scale_mapping :
    ((xScaleOf [⟨.num 0, .num 0⟩, ⟨.num 10, .num 10⟩] none .noNice 0 100 0).map
        (fun s => (s.apply 0, s.apply 10)) = some (0, 100)) ∧
      ((yScaleOf [⟨.num 0, .num 0⟩, ⟨.num 10, .num 10⟩] none .noNice 0 100 0).map
        (fun s => (s.apply 0, s.apply 10)) = some (100, 0)) := by
  constructor
  · norm_num [xScaleOf, beforeNiceX, xDomain, defaultDomain, minScalar, maxScalar, maybeWithNice,
      chartLeftPixel, chartRightPixel, Scalar.value, Datum.get, Scalar.isDate, LinScale.apply]
  · norm_num [yScaleOf, beforeNiceY, yDomain, defaultDomain, minScalar, maxScalar, maybeWithNice,
      chartBottomPixel, chartTopPixel, Scalar.value, Datum.get, Scalar.isDate, LinScale.apply]

/-- C5: for an ascending numeric domain, `maybeWithNice` never narrows it —
whatever the `nice` setting (absent, `true`, or any numeric count), the niced
lower bound is at most the old one and the niced upper bound at least the old
one. -/
theorem nicing_never_narrows (s : LinScale) (p : NiceProp) (hasc : s.d0 ≤ s.d1)
    (hlin : s.isTime = false) :
    (maybeWithNice s p).d0 ≤ s.d0 ∧ s.d1 ≤ (maybeWithNice s p).d1 := by
  rcases p with _ | _ | c
  · exact ⟨le_refl _, le_refl _⟩
  · exact d3NiceDomain_widens s.d0 s.d1 10 hasc
  · simp only [maybeWithNice]
    split
    · exact ⟨le_refl _, le_refl _⟩
    · exact d3NiceDomain_widens s.d0 s.d1 c hasc

/-- Witness for C5 at the domain `[0.3, 9.7]` with `nice: true`. -/
theorem nicing_never_narrows_witness :
    (maybeWithNice ⟨false, 3 / 10, 97 / 10, 0, 100⟩ .niceTrue).d0 ≤ (3 / 10 : ℚ) ∧
      (97 / 10 : ℚ) ≤ (maybeWithNice ⟨false, 3 / 10, 97 / 10, 0, 100⟩ .niceTrue).d1 :=
  nicing_never_narrows ⟨false, 3 / 10, 97 / 10, 0, 100⟩ .niceTrue (by norm_num) rfl

/-- Counterexample to C3 as stated: with `labelPixelOffset = {horizontal: 5,
vertical: 0}` on an x-axis tick at domain value 5 (scales as in the spec's
worked example, axis labels at pixel y 112), the gridline endpoints sit at
pixel x 50 while the tick's label is placed at pixel x 55. -/
theorem gridline_label_offset_counterexample :
    ¬ ((xLabelToAxisTick ⟨false, 0, 10, 0, 100⟩ ⟨false, 0, 10, 100, 0⟩ 112 0 100 0 0
          ⟨.num 5, "5"⟩ ⟨5, 0⟩).gridLine.p1.pixelX
        = (xLabelToAxisTick ⟨false, 0, 10, 0, 100⟩ ⟨false, 0, 10, 100, 0⟩ 112 0 100 0 0
          ⟨.num 5, "5"⟩ ⟨5, 0⟩).textProps.x) := by
  norm_num [xLabelToAxisTick, xTickToGridLine, xTextLabelProps, LinScale.apply, LinScale.invert,
    Scalar.value]

/-- C3 (amended): every axis tick's gridline endpoints are at the tick's own
pixel coordinate along the axis (`xScale(v)` for x ticks, `yScale(v)` for y
ticks); the tick's label is placed at that coordinate shifted by the
`labelPixelOffset`, so gridline and label coincide exactly when the offset
component along that axis is zero (the default offset). -/
theorem gridline_meets_tick_base
    (xs ys : LinScale) (axisPixelY chartTop chartBottom xse xee : ℚ)
    (label : XAxisLabel) (offset : PixelOffset)
    (xs2 ys2 : LinScale) (axisPixelX chartLeft chartRight yse yee : ℚ)
    (ylabel : YAxisLabel) (offset2 : PixelOffset) :
    ((xLabelToAxisTick xs ys axisPixelY chartTop chartBottom xse xee label offset).gridLine.p1.pixelX
        = (xLabelToAxisTick xs ys axisPixelY chartTop chartBottom xse xee label offset).pixelX ∧
      (xLabelToAxisTick xs ys axisPixelY chartTop chartBottom xse xee label offset).gridLine.p2.pixelX
        = (xLabelToAxisTick xs ys axisPixelY chartTop chartBottom xse xee label offset).pixelX ∧
      (xLabelToAxisTick xs ys axisPixelY chartTop chartBottom xse xee label offset).textProps.x
        = (xLabelToAxisTick xs ys axisPixelY chartTop chartBottom xse xee label offset).pixelX
            + offset.horizontal) ∧
    ((yLabelToAxisTick xs2 ys2 axisPixelX chartLeft chartRight yse yee ylabel offset2).gridLine.p1.pixelY
        = (yLabelToAxisTick xs2 ys2 axisPixelX chartLeft chartRight yse yee ylabel offset2).pixelY ∧
      (yLabelToAxisTick xs2 ys2 axisPixelX chartLeft chartRight yse yee ylabel offset2).gridLine.p2.pixelY
        = (yLabelToAxisTick xs2 ys2 axisPixelX chartLeft chartRight yse yee ylabel offset2).pixelY ∧
      (yLabelToAxisTick xs2 ys2 axisPixelX chartLeft chartRight yse yee ylabel offset2).textProps.y
        = (yLabelToAxisTick xs2 ys2 axisPixelX chartLeft chartRight yse yee ylabel offset2).pixelY
            + offset2.vertical) :=
  ⟨⟨rfl, rfl, rfl⟩, ⟨rfl, rfl, rfl⟩⟩

/-- C4: an explicitly supplied visible range is the domain verbatim, for every
data array (the inferred min/max are not even computed); with no visible
range, the domain is the data's min/max for that axis. -/
theorem visible_range_overrides_domain :
    (∀ (data : List Datum) (p : Scalar × Scalar), xDomain (some p) data = some p) ∧
      (∀ (data : List Datum) (p : Scalar × Scalar), yDomain (some p) data = some p) ∧
      (∀ (data : List Datum) (m M : Scalar),
        minScalar (data.map (fun e => e.get AxisKey.x)) = some m →
        maxScalar (data.map (fun e => e.get AxisKey.x)) = some M →
        xDomain none data = some (m, M)) ∧
      (∀ (data : List Datum) (m M : Scalar),
        minScalar (data.map (fun e => e.get AxisKey.y)) = some m →
        maxScalar (data.map (fun e => e.get AxisKey.y)) = some M →
        yDomain none data = some (m, M)) := by
  refine ⟨fun _ _ => rfl, fun _ _ => rfl, fun data m M hm hM => ?_, fun data m M hm hM => ?_⟩
  · simp only [xDomain, defaultDomain, hm, hM]
  · simp only [yDomain, defaultDomain, hm, hM]

/-- Witness for C4: the inferred branch at a concrete one-point data array. -/
theorem visible_range_overrides_domain_witness :
    xDomain none [⟨.num 1, .num 2⟩] = some (.num 1, .num 1) :=
  visible_range_overrides_domain.2.2.1 [⟨.num 1, .num 2⟩] (.num 1) (.num 1) rfl rfl

/-- C6: the kind of each axis scale is decided by the first datum alone — the
x scale is time-based exactly when `data[0].x` is a `Date` (and likewise for
y with `data[0].y`), and replacing every later element leaves the kind
unchanged. -/
theorem scale_kind_from_first_datum
    (d : Datum) (rest rest2 : List Datum) (vx vy : Option (Scalar × Scalar)) (nx ny : NiceProp)
    (w h pt pr pb pl : ℚ) :
    ((xScaleOf (d :: rest) vx nx pl w pr).map LinScale.isTime = some d.x.isDate) ∧
      ((yScaleOf (d :: rest) vy ny pt h pb).map LinScale.isTime = some d.y.isDate) ∧
      ((xScaleOf (d :: rest) vx nx pl w pr).map LinScale.isTime
        = (xScaleOf (d :: rest2) vx nx pl w pr).map LinScale.isTime) ∧
      ((yScaleOf (d :: rest) vy ny pt h pb).map LinScale.isTime
        = (yScaleOf (d :: rest2) vy ny pt h pb).map LinScale.isTime) := by
  have hx : ∀ rest3 : List Datum,
      (xScaleOf (d :: rest3) vx nx pl w pr).map LinScale.isTime = some d.x.isDate := by
    intro rest3
    rcases vx with _ | p
    · simp [xScaleOf, beforeNiceX, xDomain, defaultDomain, minScalar, maxScalar,
        (maybeWithNice_preserves _ nx).2.2]
    · simp [xScaleOf, beforeNiceX, xDomain, (maybeWithNice_preserves _ nx).2.2]
  have hy : ∀ rest3 : List Datum,
      (yScaleOf (d :: rest3) vy ny pt h pb).map LinScale.isTime = some d.y.isDate := by
    intro rest3
    rcases vy with _ | p
    · simp [yScaleOf, beforeNiceY, yDomain, defaultDomain, minScalar, maxScalar,
        (maybeWithNice_preserves _ ny).2.2]
    · simp [yScaleOf, beforeNiceY, yDomain, (maybeWithNice_preserves _ ny).2.2]
  exact ⟨hx rest, hy rest, (hx rest).trans (hx rest2).symm, (hy rest).trans (hy rest2).symm⟩

/-- C7: per axis, an explicit label array is used verbatim; a numeric `labels`
prop delegates to the scale's own tick generation at that count; an absent
`labels` prop delegates at a count of `data.length`. -/
theorem ticks_selection (s : LinScale) (data : List Datum) :
    (∀ ls : List XAxisLabel, ticksOf (.list ls) s data.length = .inl ls) ∧
      (∀ n : ℚ, ticksOf (α := XAxisLabel) (.count n) s data.length = .inr (s.genTicks n)) ∧
      (ticksOf (α := XAxisLabel) .absent s data.length
        = .inr (s.genTicks (data.length : ℚ))) ∧
      (∀ ls : List YAxisLabel, ticksOf (.list ls) s data.length = .inl ls) ∧
      (∀ n : ℚ, ticksOf (α := YAxisLabel) (.count n) s data.length = .inr (s.genTicks n)) ∧
      (ticksOf (α := YAxisLabel) .absent s data.length
        = .inr (s.genTicks (data.length : ℚ))) :=
  ⟨fun _ => rfl, fun _ => rfl, rfl, fun _ => rfl, fun _ => rfl, rfl⟩

/-- C8: for non-degenerate scales, every x-axis tick's gridline is a vertical
segment whose endpoint pixel y values are `chartTopPixel - startExtendPixels`
and `chartBottomPixel + endExtendPixels`, and every y-axis tick's gridline is
a horizontal segment whose endpoint pixel x values are
`chartLeftPixel - startExtendPixels` and `chartRightPixel + endExtendPixels`;
an absent extension prop contributes `0`. -/
theorem gridlines_span_chart_extent
    (xs ys : LinScale) (width height paddingTop paddingRight paddingBottom paddingLeft : ℚ)
    (xStartExtend xEndExtend yStartExtend yEndExtend : Option ℚ) (xv px yv py : ℚ)
    (hyd : ys.d1 - ys.d0 ≠ 0) (hyr : ys.r1 - ys.r0 ≠ 0)
    (hxd : xs.d1 - xs.d0 ≠ 0) (hxr : xs.r1 - xs.r0 ≠ 0) :
    ((xTickToGridLine ys (chartTopPixel paddingTop) (chartBottomPixel height paddingBottom)
        (gridExtend xStartExtend) (gridExtend xEndExtend) xv px).p1.pixelY
      = chartTopPixel paddingTop - gridExtend xStartExtend) ∧
    ((xTickToGridLine ys (chartTopPixel paddingTop) (chartBottomPixel height paddingBottom)
        (gridExtend xStartExtend) (gridExtend xEndExtend) xv px).p2.pixelY
      = chartBottomPixel height paddingBottom + gridExtend xEndExtend) ∧
    ((yTickToGridLine xs (chartLeftPixel paddingLeft) (chartRightPixel width paddingRight)
        (gridExtend yStartExtend) (gridExtend yEndExtend) yv py).p1.pixelX
      = chartLeftPixel paddingLeft - gridExtend yStartExtend) ∧
    ((yTickToGridLine xs (chartLeftPixel paddingLeft) (chartRightPixel width paddingRight)
        (gridExtend yStartExtend) (gridExtend yEndExtend) yv py).p2.pixelX
      = chartRightPixel width paddingRight + gridExtend yEndExtend) ∧
    gridExtend none = 0 :=
  ⟨ys.apply_invert hyd hyr _, ys.apply_invert hyd hyr _,
    xs.apply_invert hxd hxr _, xs.apply_invert hxd hxr _, rfl⟩

/-- Witness for C8 at the spec's worked-example scales with mixed explicit and
absent extension props. -/
theorem gridlines_span_chart_extent_witness :
    ((xTickToGridLine ⟨false, 0, 10, 100, 0⟩ (chartTopPixel 0) (chartBottomPixel 100 0)
        (gridExtend (some 3)) (gridExtend none) 5 50).p1.pixelY
      = chartTopPixel 0 - gridExtend (some 3)) ∧
    ((xTickToGridLine ⟨false, 0, 10, 100, 0⟩ (chartTopPixel 0) (chartBottomPixel 100 0)
        (gridExtend (some 3)) (gridExtend none) 5 50).p2.pixelY
      = chartBottomPixel 100 0 + gridExtend none) ∧
    ((yTickToGridLine ⟨false, 0, 10, 0, 100⟩ (chartLeftPixel 0) (chartRightPixel 100 0)
        (gridExtend none) (gridExtend (some 2)) 5 50).p1.pixelX
      = chartLeftPixel 0 - gridExtend none) ∧
    ((yTickToGridLine ⟨false, 0, 10, 0, 100⟩ (chartLeftPixel 0) (chartRightPixel 100 0)
        (gridExtend none) (gridExtend (some 2)) 5 50).p2.pixelX
      = chartRightPixel 100 0 + gridExtend (some 2)) ∧
    gridExtend none = 0 :=
  gridlines_span_chart_extent ⟨false, 0, 10, 0, 100⟩ ⟨false, 0, 10, 100, 0⟩ 100 100 0 0 0 0
    (some 3) none none (some 2) 5 50 5 50
    (by norm_num) (by norm_num) (by norm_num) (by norm_num)

/-- C9: malformed input is not handled defensively — with empty data and no
explicit visible range the min/max reduction's error propagates uncaught
(`none`), while degenerate non-empty input (a single-point domain) yields
degenerate numeric output instead of an error: every value is mapped to the
constant range midpoint. -/
theorem malformed_input_degenerates :
    (xDomain none ([] : List Datum) = none) ∧
      (yDomain none ([] : List Datum) = none) ∧
      (∀ (d : Datum) (w h pt pr pb pl z : ℚ),
        ((xScaleOf [d] none .noNice pl w pr).map (fun s => s.apply z)
          = some ((chartLeftPixel pl + chartRightPixel w pr) / 2)) ∧
        ((yScaleOf [d] none .noNice pt h pb).map (fun s => s.apply z)
          = some ((chartBottomPixel h pb + chartTopPixel pt) / 2))) := by
  refine ⟨rfl, rfl, fun d w h pt pr pb pl z => ⟨?_, ?_⟩⟩
  · simp only [xScaleOf, beforeNiceX, xDomain, defaultDomain, minScalar, maxScalar, List.map,
      List.foldl, maybeWithNice, Option.map_some', LinScale.apply, sub_self, if_true,
      eq_self_iff_true, Option.some.injEq]
    ring
  · simp only [yScaleOf, beforeNiceY, yDomain, defaultDomain, minScalar, maxScalar, List.map,
      List.foldl, maybeWithNice, Option.map_some', LinScale.apply, sub_self, if_true,
      eq_self_iff_true, Option.some.injEq]
    ring

/-- C10: a numeric axis-label position of `0` is treated as absent by the
truthiness test, falling back to the default `'bottom'` (x axis) / `'left'`
(y axis) placement, while every nonzero number positions the labels at
exactly that pixel coordinate. -/
theorem zero_axis_position_falls_back
    (chartTop chartBottom chartLeft chartRight q : ℚ) (hq : q ≠ 0) :
    (defaultXAxisPixelY (some (.num 0)) chartTop chartBottom = chartBottom + 12) ∧
      (defaultXAxisPixelY (some (.num 0)) chartTop chartBottom
        = defaultXAxisPixelY none chartTop chartBottom) ∧
      (defaultXAxisPixelY (some (.num q)) chartTop chartBottom = q) ∧
      (defaultYAxisPixelX (some (.num 0)) chartLeft chartRight = chartLeft - 4) ∧
      (defaultYAxisPixelX (some (.num 0)) chartLeft chartRight
        = defaultYAxisPixelX none chartLeft chartRight) ∧
      (defaultYAxisPixelX (some (.num q)) chartLeft chartRight = q) := by
  simp [defaultXAxisPixelY, defaultYAxisPixelX, xAxisLocation, yAxisLocation, hq]

/-- Witness for C10 with the nonzero position `5`. -/
theorem zero_axis_position_falls_back_witness :
    (defaultXAxisPixelY (some (.num 0)) 0 100 = 100 + 12) ∧
      (defaultXAxisPixelY (some (.num 0)) 0 100 = defaultXAxisPixelY none 0 100) ∧
      (defaultXAxisPixelY (some (.num 5)) 0 100 = 5) ∧
      (defaultYAxisPixelX (some (.num 0)) 0 100 = 0 - 4) ∧
      (defaultYAxisPixelX (some (.num 0)) 0 100 = defaultYAxisPixelX none 0 100) ∧
      (defaultYAxisPixelX (some (.num 5)) 0 100 = 5) :=
  zero_axis_position_falls_back 0 100 0 100 5 (by norm_num)
